import Mathlib

/-!
Verification development for the FSBO scraper (`src/fsbo_scraper.py`).

The extraction and scoring pipeline of the scraper is embedded shallowly:

* strings are Lean `String`s; Python `str.lower` is modelled on the ASCII
  letters (`Char.toLower`); Python `str.isdigit` is modelled on the ASCII
  digits (`Char.isDigit`); both sides of every comparison use the same model,
  so the structural claims are unaffected by the restriction;
* a listing row (`tr.searchResultsItem`) is a `Fragment` holding the stripped
  text of each sub-element when the element is present;
* an element of the scanned row list is `Except String Fragment`; the
  `Except.error` constructor models a row whose extraction raises, which the
  enclosing loop catches and skips;
* a page outcome is `Except String (List (Except String Fragment))`; the
  `Except.error` constructor models an exception while fetching or parsing
  that page, caught by the per-page handler;
* the Selenium driver is `Option Unit` (`none` models the driver failing to
  start, the total fetch failure);
* wall-clock fields (`scraped_at`, timing in the job result) are omitted:
  no claim depends on them;
* Python `hash` on a string is salted per process, so the document id
  derivation takes the hash function of the current process as a parameter.
-/

namespace Fsbo

open scoped List

/-- Python `str.replace(needle, "")` at the character-list level: removes the
non-overlapping occurrences of `needle`, scanning left to right. `fuel` bounds
the recursion; callers pass the length of the haystack, which suffices. -/
def replaceAux (needle : List Char) : Nat → List Char → List Char
  | 0, _ => []
  | _ + 1, [] => []
  | fuel + 1, c :: rest =>
    if needle ≠ [] ∧ needle <+: c :: rest then
      replaceAux needle fuel ((c :: rest).drop needle.length)
    else
      c :: replaceAux needle fuel rest

/-- Removal of every occurrence of `needle` from `hay`. -/
def replaceAll (needle hay : List Char) : List Char :=
  replaceAux needle hay.length hay

/-- The cleaning step of `clean_price`: successively strips the currency sign,
the separator dots, the spaces and the string TL, in the order of the source. -/
def stripped (price_text : String) : List Char :=
  replaceAll ['T', 'L'] (replaceAll [' '] (replaceAll ['.'] (replaceAll ['₺'] price_text.toList)))

/-- Value of a digit string, as Python `int` parses an all-digit string. -/
def digitsVal (l : List Char) : Nat :=
  l.foldl (fun a c => 10 * a + (c.toNat - '0'.toNat)) 0

/-- Mirrors `clean_price`: strips currency sign, dots, spaces and TL, then
parses the remainder as an integer when it is nonempty and all digits,
returning 0 otherwise (the bare except of the source also returns 0). -/
def clean_price (price_text : String) : Int :=
  let cleaned := stripped price_text
  if cleaned ≠ [] ∧ cleaned.all Char.isDigit then (digitsVal cleaned : Int) else 0

example : clean_price "1.250.000 TL" = 1250000 := by decide
example : clean_price "₺ 850.000" = 850000 := by decide
example : clean_price "abc" = 0 := by decide
example : clean_price "" = 0 := by decide

/-- Replacement only ever removes characters: the result is a sublist. -/
theorem replaceAux_sublist (needle : List Char) :
    ∀ fuel hay, replaceAux needle fuel hay <+ hay := by
  intro fuel
  induction fuel with
  | zero =>
    intro hay
    exact List.nil_sublist hay
  | succ n ih =>
    intro hay
    match hay with
    | [] => simp [replaceAux]
    | c :: rest =>
      simp only [replaceAux]
      split
      · exact (ih _).trans (List.drop_sublist _ _)
      · exact (ih rest).cons₂ c

/-- Removing occurrences of a digit-free needle does not change the digit
characters of the haystack. -/
theorem replaceAux_filter (needle : List Char) (hn : ∀ c ∈ needle, c.isDigit = false) :
    ∀ fuel hay, hay.length ≤ fuel →
      (replaceAux needle fuel hay).filter Char.isDigit = hay.filter Char.isDigit := by
  intro fuel
  induction fuel with
  | zero =>
    intro hay hlen
    have hnil : hay = [] := List.eq_nil_of_length_eq_zero (Nat.le_zero.mp hlen)
    subst hnil
    rfl
  | succ n ih =>
    intro hay hlen
    match hay with
    | [] => rfl
    | c :: rest =>
      simp only [replaceAux]
      split
      · rename_i hcond
        obtain ⟨hne, t, ht⟩ := hcond
        have hdrop : (c :: rest).drop needle.length = t := by
          rw [← ht, List.drop_left]
        rw [hdrop]
        have hlt : t.length ≤ n := by
          have hlen2 := congrArg List.length ht
          simp only [List.length_append, List.length_cons] at hlen2
          have hpos : 1 ≤ needle.length := by
            cases needle with
            | nil => exact absurd rfl hne
            | cons _ _ => simp
          simp only [List.length_cons] at hlen
          omega
        rw [ih t hlt, ← ht, List.filter_append]
        have hfn : needle.filter Char.isDigit = [] := by
          refine List.filter_eq_nil_iff.mpr ?_
          intro a ha
          simp [hn a ha]
        rw [hfn, List.nil_append]
      · simp only [List.filter_cons]
        have hr : rest.length ≤ n := by
          simp only [List.length_cons] at hlen
          omega
        rw [ih rest hr]

theorem replaceAll_sublist (needle hay : List Char) : replaceAll needle hay <+ hay :=
  replaceAux_sublist needle hay.length hay

theorem replaceAll_filter (needle hay : List Char) (hn : ∀ c ∈ needle, c.isDigit = false) :
    (replaceAll needle hay).filter Char.isDigit = hay.filter Char.isDigit :=
  replaceAux_filter needle hn hay.length hay (Nat.le_refl _)

/-- The cleaning step only removes characters of the input. -/
theorem stripped_sublist (s : String) : stripped s <+ s.toList := by
  unfold stripped
  exact (replaceAll_sublist _ _).trans ((replaceAll_sublist _ _).trans
    ((replaceAll_sublist _ _).trans (replaceAll_sublist _ _)))

/-- The cleaning step preserves the digit characters of the input, in order. -/
theorem stripped_filter (s : String) :
    (stripped s).filter Char.isDigit = s.toList.filter Char.isDigit := by
  unfold stripped
  rw [replaceAll_filter _ _ (by decide), replaceAll_filter _ _ (by decide),
    replaceAll_filter _ _ (by decide), replaceAll_filter _ _ (by decide)]

/-- Python `str.lower`, modelled on the ASCII letters, at the character-list
level. Both the titles and the keyword tables go through the same model, so
the gate and scorer structure is unchanged by this restriction. -/
def pyLower (s : String) : List Char :=
  s.toList.map Char.toLower

/-- Python substring containment, `kw in text`. -/
def kwIn (kw : String) (text : List Char) : Bool :=
  decide (kw.toList <:+: text)

/-- One candidate listing row (`tr.searchResultsItem`). Each field holds the
stripped text of the corresponding sub-element when that element is present;
`href` is the anchor attribute, defaulted to the empty string as in the
source. -/
structure Fragment where
  title_elem : Option String
  href : String
  price_elem : Option String
  location_elem : Option String
  details_elem : Option String
  date_elem : Option String
  deriving DecidableEq

/-- The record built by `parse_single_listing`, with the `source_page` field
attached by `parse_listings_page`. The wall-clock `scraped_at` field is
omitted: no claim depends on it. -/
structure Listing where
  title : String
  price : Int
  location : String
  details : String
  date_text : String
  url : String
  opportunity_score : Int
  source_page : Nat := 0
  deriving DecidableEq

/-- Mirrors `calculate_opportunity_score`: base 5, keyword and location and
price-band bonuses, clamped with `min(max(score, 1), 10)`. -/
def calculate_opportunity_score (title : String) (price : Int) (location : String) : Int :=
  let score : Int := 5
  let title_lower := pyLower title
  let score := if ["acil", "acele", "ivedi"].any (fun w => kwIn w title_lower) then score + 2 else score
  let score := if ["takas", "değişen"].any (fun w => kwIn w title_lower) then score + 1 else score
  let score := if ["ihtiyaçtan", "tahliye"].any (fun w => kwIn w title_lower) then score + 2 else score
  let location_lower := pyLower location
  let score := if ["kadıköy", "beşiktaş", "şişli"].any (fun w => kwIn w location_lower) then score + 1 else score
  let score := if 200000 ≤ price ∧ price ≤ 500000 then score + 1 else score
  min (max score 1) 10

/-- The positive keyword list of `is_fsbo_candidate`. -/
def fsbo_keywords : List String :=
  ["sahibinden", "acil", "takas", "değişen", "tahliye",
   "ihtiyaçtan", "krediye uygun", "acele", "ivedi"]

/-- The agency blacklist of `is_fsbo_candidate`. -/
def agent_keywords : List String :=
  ["emlak", "gayrimenkul", "danışman", "broker", "ofis"]

/-- Mirrors `is_fsbo_candidate`: at least one positive keyword in the
lowercased title, no agency keyword, and price inside the absolute band. -/
def is_fsbo_candidate (listing : Listing) : Bool :=
  let title := pyLower listing.title
  let has_fsbo_keyword := fsbo_keywords.any (fun k => kwIn k title)
  let has_agent_keyword := agent_keywords.any (fun k => kwIn k title)
  let price_ok : Bool := decide (100000 ≤ listing.price ∧ listing.price ≤ 10000000)
  has_fsbo_keyword && !has_agent_keyword && price_ok

/-- The fixed site origin prefixed to root-relative hrefs. -/
def site_origin : String := "https://www.sahibinden.com"

/-- Mirrors `parse_single_listing`: a row without the title anchor yields no
record; every other missing element resolves to its default text. -/
def parse_single_listing (item : Fragment) : Option Listing :=
  match item.title_elem with
  | none => none
  | some title =>
    let url := site_origin ++ item.href
    let price_text := item.price_elem.getD "0"
    let price := clean_price price_text
    let location := item.location_elem.getD ""
    let details := item.details_elem.getD ""
    let date_text := item.date_elem.getD ""
    some {
      title := title
      price := price
      location := location
      details := details
      date_text := date_text
      url := url
      opportunity_score := calculate_opportunity_score title price location
    }

/-- Mirrors `parse_listings_page`. An `Except.error` row models a row whose
extraction raises; the handler of the loop catches it and continues with the
next row. A parsed row is kept only when the hard gate admits it. -/
def parse_listings_page : List (Except String Fragment) → Nat → List Listing
  | [], _ => []
  | Except.error _ :: rest, page_num => parse_listings_page rest page_num
  | Except.ok item :: rest, page_num =>
    match parse_single_listing item with
    | some listing_data =>
      if is_fsbo_candidate listing_data then
        { listing_data with source_page := page_num } :: parse_listings_page rest page_num
      else
        parse_listings_page rest page_num
    | none => parse_listings_page rest page_num

/-- The page loop of `scrape_sahibinden_fsbo`, starting at the given page
number. An `Except.error` page models an exception while fetching, waiting on
or parsing that page: the handler counts it and continues with the next page
number. -/
def scrape_pages : List (Except String (List (Except String Fragment))) → Nat → List Listing
  | [], _ => []
  | Except.error _ :: rest, page => scrape_pages rest (page + 1)
  | Except.ok rows :: rest, page => parse_listings_page rows page ++ scrape_pages rest (page + 1)

/-- Mirrors `scrape_sahibinden_fsbo`: with no driver the empty list is
returned; otherwise the pages are processed in order starting from page 1. -/
def scrape_sahibinden_fsbo (driver : Option Unit)
    (pages : List (Except String (List (Except String Fragment)))) : List Listing :=
  match driver with
  | none => []
  | some _ => scrape_pages pages 1

/-- The summary dictionary built by `run_scraping_job` on its normal path;
the wall-clock timing fields are omitted. -/
structure JobResult where
  success : Bool
  total_scraped : Nat
  total_saved : Nat
  pages_processed : Nat
  deriving DecidableEq

/-- Mirrors the count returned by `save_to_firestore`: one batched write per
listing, so the saved count equals the number of listings (the bare except of
the source would return a partial count, which no claim depends on). -/
def save_to_firestore (listings : List Listing) : Nat := listings.length

/-- Mirrors `run_scraping_job`. The `except` branch of the source, the only
one that reports success false, is reachable only if an exception escapes
`scrape_sahibinden_fsbo` or `save_to_firestore`; both catch every exception
internally, so the embedding has no failure channel here and the normal path
is always taken. -/
def run_scraping_job (driver : Option Unit)
    (pages : List (Except String (List (Except String Fragment)))) : JobResult :=
  let listings := scrape_sahibinden_fsbo driver pages
  let saved_count := save_to_firestore listings
  { success := true
    total_scraped := listings.length
    total_saved := saved_count
    pages_processed := pages.length }

/-- The document id computed in `save_to_firestore`. Python `hash` on a
string is salted per process (PYTHONHASHSEED), so the derivation takes the
hash function of the current process as a parameter. -/
def doc_id (pyHash : String → Int) (url : String) : String :=
  "fsbo_" ++ toString (pyHash url)

/-- Every record of the page output passed the hard gate. -/
theorem gate_of_mem_parse :
    ∀ (items : List (Except String Fragment)) (page_num : Nat) (l : Listing),
      l ∈ parse_listings_page items page_num → is_fsbo_candidate l = true := by
  intro items
  induction items with
  | nil =>
    intro n l h
    simp [parse_listings_page] at h
  | cons hd tl ih =>
    intro n l h
    match hd with
    | Except.error e =>
      simp only [parse_listings_page] at h
      exact ih n l h
    | Except.ok item =>
      cases hp : parse_single_listing item with
      | none =>
        simp only [parse_listings_page, hp] at h
        exact ih n l h
      | some ld =>
        simp only [parse_listings_page, hp] at h
        split at h
        · rename_i hg
          rcases List.mem_cons.mp h with hl | hl
          · subst hl
            exact hg
          · exact ih n l hl
        · exact ih n l h

/-- Unfolding of the page loop on one row: the row contributes its admitted
record, or nothing, in front of the output of the remaining rows. -/
theorem parse_listings_page_cons (hd : Except String Fragment)
    (rest : List (Except String Fragment)) (page_num : Nat) :
    parse_listings_page (hd :: rest) page_num =
      (match hd with
       | Except.error _ => []
       | Except.ok item =>
         match parse_single_listing item with
         | some ld =>
           if is_fsbo_candidate ld then [{ ld with source_page := page_num }] else []
         | none => []) ++ parse_listings_page rest page_num := by
  match hd with
  | Except.error e => simp [parse_listings_page]
  | Except.ok item =>
    cases hp : parse_single_listing item with
    | none => simp [parse_listings_page, hp]
    | some ld =>
      by_cases hg : is_fsbo_candidate ld = true
      · simp [parse_listings_page, hp, hg]
      · simp [parse_listings_page, hp, hg]

/-- A record with an empty title is rejected by the hard gate: no positive
keyword occurs in the empty lowercased title. -/
theorem is_fsbo_candidate_of_empty_title (l : Listing) (ht : l.title = "") :
    is_fsbo_candidate l = false := by
  simp only [is_fsbo_candidate, ht]
  have hkw : (fsbo_keywords.any fun k => kwIn k (pyLower "")) = false := by decide
  rw [hkw]
  rfl

/-- C1: the hard gate admits a record if and only if its lowercased title
contains at least one positive keyword, contains no agency keyword, and its
price lies in the band from 100000 to 10000000; and every record of the page
output passed the gate, so a record failing any condition is discarded. -/
theorem C1_hard_gate :
    (∀ l : Listing,
        is_fsbo_candidate l = true ↔
          ((∃ kw ∈ fsbo_keywords, kw.toList <:+: pyLower l.title) ∧
           (∀ kw ∈ agent_keywords, ¬ kw.toList <:+: pyLower l.title) ∧
           (100000 ≤ l.price ∧ l.price ≤ 10000000))) ∧
    (∀ (items : List (Except String Fragment)) (page_num : Nat) (l : Listing),
        l ∈ parse_listings_page items page_num → is_fsbo_candidate l = true) := by
  constructor
  · intro l
    unfold is_fsbo_candidate
    simp only [Bool.and_eq_true, Bool.not_eq_true', List.any_eq_true, List.any_eq_false,
      kwIn, decide_eq_true_eq, decide_eq_false_iff_not, and_assoc]
  · exact gate_of_mem_parse

/-- Concrete row admitted by the gate, for the C1 witness. -/
def frag_c1 : Fragment :=
  { title_elem := some "Sahibinden acil daire"
    href := "/ilan/1"
    price_elem := some "850.000 TL"
    location_elem := some "Kadıköy"
    details_elem := some "3+1"
    date_elem := some "Bugün" }

/-- The record the pipeline produces from `frag_c1` on page 1. -/
def lst_c1 : Listing :=
  { title := "Sahibinden acil daire"
    price := 850000
    location := "Kadıköy"
    details := "3+1"
    date_text := "Bugün"
    url := "https://www.sahibinden.com/ilan/1"
    opportunity_score := 8
    source_page := 1 }

theorem C1_hard_gate_witness : is_fsbo_candidate lst_c1 = true :=
  C1_hard_gate.2 [Except.ok frag_c1] 1 lst_c1 (by decide)

/-- C2: for every title, integer price and location, the score returned by
`calculate_opportunity_score` lies in the inclusive range from 1 to 10. -/
theorem C2_score_in_1_10 (title : String) (price : Int) (location : String) :
    1 ≤ calculate_opportunity_score title price location ∧
      calculate_opportunity_score title price location ≤ 10 := by
  simp only [calculate_opportunity_score]
  split_ifs <;> decide

/-- C10: the scorer starts from base 5 and only ever adds non-negative
bonuses before clamping, so its result lies in the range from 5 to 10 for
every input; no input can push it below 5. -/
theorem C10_score_in_5_10 (title : String) (price : Int) (location : String) :
    5 ≤ calculate_opportunity_score title price location ∧
      calculate_opportunity_score title price location ≤ 10 := by
  simp only [calculate_opportunity_score]
  split_ifs <;> decide

/-- C3 fails on the code: for the digitless input abc, `clean_price` returns
the numeric sentinel 0 rather than an absent value. -/
theorem C3_counterexample :
    ("abc".toList.all (fun c => !c.isDigit)) = true ∧ clean_price "abc" = 0 := by
  decide

/-- C3 amended: for every input containing no digit characters, `clean_price`
returns the numeric sentinel 0 (never an error, but not an absent value). -/
theorem C3_no_digits_sentinel_zero (s : String)
    (h : ∀ c ∈ s.toList, c.isDigit = false) : clean_price s = 0 := by
  simp only [clean_price]
  split
  · rename_i hcond
    obtain ⟨hne, hall⟩ := hcond
    exfalso
    cases hs : stripped s with
    | nil => exact hne hs
    | cons c rest =>
      have hc : c ∈ stripped s := by
        rw [hs]
        exact List.mem_cons_self c rest
      have hcs : c ∈ s.toList := (stripped_sublist s).subset hc
      rw [hs] at hall
      have hd := List.all_eq_true.mp hall c (List.mem_cons_self c rest)
      rw [h c hcs] at hd
      exact Bool.false_ne_true hd
  · rfl

theorem C3_no_digits_sentinel_zero_witness : clean_price " ₺TL." = 0 :=
  C3_no_digits_sentinel_zero " ₺TL." (by decide)

/-- C4: whenever `clean_price` parses, that is the cleaned text is nonempty
and consists of digits, the result is the non-negative integer denoted by the
digit characters of the input in order, grouping punctuation stripped; the
showcase input 1.250.000 TL yields 1250000. -/
theorem C4_digit_concatenation (s : String)
    (h1 : stripped s ≠ [])
    (h2 : (stripped s).all Char.isDigit = true) :
    clean_price s = (digitsVal (s.toList.filter Char.isDigit) : Int) ∧
      0 ≤ clean_price s ∧
      clean_price "1.250.000 TL" = 1250000 := by
  have hstr : stripped s = s.toList.filter Char.isDigit := by
    have hself : (stripped s).filter Char.isDigit = stripped s :=
      List.filter_eq_self.mpr (List.all_eq_true.mp h2)
    rw [← hself, stripped_filter]
  have hval : clean_price s = (digitsVal (stripped s) : Int) := by
    simp only [clean_price]
    rw [if_pos ⟨h1, h2⟩]
  refine ⟨?_, ?_, by decide⟩
  · rw [hval, hstr]
  · rw [hval]
    exact Int.natCast_nonneg _

theorem C4_digit_concatenation_witness :
    clean_price "1.250.000 TL" = 1250000 :=
  (C4_digit_concatenation "1.250.000 TL" (by decide) (by decide)).2.2

/-- C5: no record of the page output has an empty title: a row without the
title anchor yields no record at all, and a record with an empty title fails
the hard gate, so it is never appended. -/
theorem C5_no_empty_title (items : List (Except String Fragment)) (page_num : Nat)
    (l : Listing) (h : l ∈ parse_listings_page items page_num) : l.title ≠ "" := by
  intro ht
  have hg := gate_of_mem_parse items page_num l h
  rw [is_fsbo_candidate_of_empty_title l ht] at hg
  exact Bool.false_ne_true hg

/-- Concrete row admitted by the gate, for the C5 witness. -/
def frag_c5 : Fragment :=
  { title_elem := some "Takas daire"
    href := "/ilan/5"
    price_elem := some "500.000"
    location_elem := none
    details_elem := none
    date_elem := none }

/-- The record the pipeline produces from `frag_c5` on page 2. -/
def lst_c5 : Listing :=
  { title := "Takas daire"
    price := 500000
    location := ""
    details := ""
    date_text := ""
    url := "https://www.sahibinden.com/ilan/5"
    opportunity_score := 7
    source_page := 2 }

theorem C5_no_empty_title_witness : lst_c5.title ≠ "" :=
  C5_no_empty_title [Except.ok frag_c5] 2 lst_c5 (by decide)

/-- Concrete row admitted by the gate, for the C6 counterexample. -/
def frag_c6 : Fragment :=
  { title_elem := some "Sahibinden satılık daire"
    href := "/ilan/6"
    price_elem := some "1.000.000"
    location_elem := some "Pendik"
    details_elem := none
    date_elem := none }

/-- C6 fails on the code: the page loop has no cap, so a page with 21
qualifying rows yields 21 output records, exceeding the claimed fixed
per-page maximum of 20. -/
theorem C6_counterexample :
    ¬ (parse_listings_page (List.replicate 21 (Except.ok frag_c6)) 1).length ≤ 20 := by
  decide

/-- C6 amended: the output length is bounded by the number of candidate rows
of the page, and by nothing else; the code imposes no fixed per-page cap. -/
theorem C6_length_le_candidates :
    ∀ (items : List (Except String Fragment)) (page_num : Nat),
      (parse_listings_page items page_num).length ≤ items.length := by
  intro items
  induction items with
  | nil =>
    intro n
    simp [parse_listings_page]
  | cons hd tl ih =>
    intro n
    match hd with
    | Except.error e =>
      simp only [parse_listings_page, List.length_cons]
      exact (ih n).trans (Nat.le_succ _)
    | Except.ok item =>
      cases hp : parse_single_listing item with
      | none =>
        simp only [parse_listings_page, hp, List.length_cons]
        exact (ih n).trans (Nat.le_succ _)
      | some ld =>
        simp only [parse_listings_page, hp, List.length_cons]
        split
        · simp only [List.length_cons]
          exact Nat.succ_le_succ (ih n)
        · exact (ih n).trans (Nat.le_succ _)

/-- C7 fails on the code: with total fetch failure (no driver) there are zero
candidates, yet the job still reports success true with empty results. -/
theorem C7_counterexample :
    scrape_sahibinden_fsbo none [] = [] ∧ (run_scraping_job none []).success = true :=
  ⟨rfl, rfl⟩

/-- C7 amended: the job always reports success true: per-page and per-listing
errors are absorbed, an unavailable driver yields an empty listing set, and
zero candidates still report success with zero counts; the branch reporting
success false is unreachable for fetch, parse or data-quality outcomes. -/
theorem C7_always_success (driver : Option Unit)
    (pages : List (Except String (List (Except String Fragment)))) :
    (run_scraping_job driver pages).success = true := rfl

/-- A page whose processing raises contributes nothing, and the pages after
it keep their page numbers: it behaves exactly like a page with no rows. -/
theorem scrape_pages_error_page :
    ∀ (xs ys : List (Except String (List (Except String Fragment)))) (e : String)
      (start : Nat),
      scrape_pages (xs ++ Except.error e :: ys) start =
        scrape_pages (xs ++ Except.ok [] :: ys) start := by
  intro xs
  induction xs with
  | nil =>
    intro ys e start
    simp only [List.nil_append, scrape_pages, parse_listings_page]
  | cons hd tl ih =>
    intro ys e start
    match hd with
    | Except.error e2 =>
      simp only [List.cons_append, scrape_pages, List.append_eq]
      exact ih ys e (start + 1)
    | Except.ok rows =>
      simp only [List.cons_append, scrape_pages, List.append_eq]
      rw [ih ys e (start + 1)]

/-- C8: error containment. A row whose extraction raises contributes no
record and the remaining rows of the page are processed unchanged; a page
whose processing raises behaves exactly like an empty page and the remaining
pages are processed unchanged, keeping their page numbers. -/
theorem C8_error_containment :
    (∀ (xs ys : List (Except String Fragment)) (e : String) (page_num : Nat),
        parse_listings_page (xs ++ Except.error e :: ys) page_num =
          parse_listings_page (xs ++ ys) page_num) ∧
    (∀ (driver : Option Unit)
        (xs ys : List (Except String (List (Except String Fragment)))) (e : String),
        scrape_sahibinden_fsbo driver (xs ++ Except.error e :: ys) =
          scrape_sahibinden_fsbo driver (xs ++ Except.ok [] :: ys)) := by
  constructor
  · intro xs
    induction xs with
    | nil =>
      intro ys e n
      simp only [List.nil_append, parse_listings_page]
    | cons hd tl ih =>
      intro ys e n
      simp only [List.cons_append, parse_listings_page_cons, ih ys e n]
  · intro driver xs ys e
    match driver with
    | none => rfl
    | some _ => exact scrape_pages_error_page xs ys e 1

/-- C9 on the code: the document id depends on the hash function of the
current process, not on the url alone, and its length varies with the hash
value. Python hash on a string is salted per process, so two invocations of
the scraper derive different ids for the same url, and the id is not of fixed
length, defeating the upsert-style duplicate control the code intends. -/
theorem C9_doc_id_salt_dependent :
    doc_id (fun _ => 0) "https://www.sahibinden.com/ilan/9" ≠
      doc_id (fun _ => 1) "https://www.sahibinden.com/ilan/9" ∧
    (doc_id (fun s => (s.length : Int)) "ab").length ≠
      (doc_id (fun s => (s.length : Int)) "abcdefghijkl").length := by
  constructor <;> decide

end Fsbo
